import Mathlib

/-!
Shallow embedding of `src/netstat.py` ("show opened ports and their
associated processes", a `netstat -nlp` analogue).

Modelling conventions:
* Python exceptions that a function may raise and does not catch are
  modelled by returning `none` (`Option`); a `some` result is a normal
  return.
* Python `dict`s are modelled as association lists with Python insertion
  semantics (`pyInsert`: overwrite in place, else append) and `dict[k]`
  as `pyGet?` (a `none` lookup is a `KeyError`, i.e. an exception).
* `psutil.net_connections()` records are `Conn`; a `pid` of `0` models
  Python `None` (kernel-owned socket); `psutil.process_iter` records are
  `ProcInfo`; the docker inventory is `Option (List Container)` where
  `none` models `client.containers.list()` raising an `IOError`
  (unreachable runtime).
* The output of the external `rpcinfo` tool is `Option (List String)`:
  `none` models `FileNotFoundError` (tool not installed); `some lines`
  is `stdout.decode("ascii").splitlines()`.
* Machine integers do not occur: ports and pids are Python `int`s,
  modelled by `Nat`.
-/

namespace Netstat

/-- Socket address family of a connection (`connection.family`); `other`
covers any family that is neither `AF_INET` nor `AF_INET6`. -/
inductive Family where
  | inet
  | inet6
  | other (n : Nat)
deriving DecidableEq

/-- Socket type of a connection (`connection.type`); `other` covers any
type that is neither `SOCK_STREAM` nor `SOCK_DGRAM`. -/
inductive SockType where
  | stream
  | dgram
  | other (n : Nat)
deriving DecidableEq

/-- One record of `psutil.process_iter(attrs=["pid", "name", "cmdline"])`. -/
structure ProcInfo where
  pid : Nat
  name : String
  cmdline : List String
deriving DecidableEq

/-- One docker container as seen through `client.containers.list()`:
its `name` and the list of `IPAddress` values of
`attrs["NetworkSettings"]["Networks"].values()`. -/
structure Container where
  name : String
  ips : List String
deriving DecidableEq

/-- One record of `psutil.net_connections()`; `pid = 0` models Python
`None` (kernel-owned socket). -/
structure Conn where
  family : Family
  type : SockType
  addr : String
  port : Nat
  status : String
  pid : Nat
deriving DecidableEq

/-- One printed report row `templ % (proto, addr, port, pid or "-", proc)`,
kept as fields rather than rendered fixed-width text. -/
structure Row where
  proto : String
  addr : String
  port : Nat
  pidField : String
  owner : String
deriving DecidableEq

/-- Python `dict` assignment `d[k] = v`: overwrite the value in place if
the key exists, else append the pair. -/
def pyInsert {K V : Type} [DecidableEq K] (k : K) (v : V) : List (K × V) → List (K × V)
  | [] => [(k, v)]
  | (k', v') :: rest => if k' = k then (k, v) :: rest else (k', v') :: pyInsert k v rest

/-- Python `dict` lookup `d[k]` (or `d.get(k)`): the value stored at the
first occurrence of `k`. -/
def pyGet? {K V : Type} [DecidableEq K] (k : K) : List (K × V) → Option V
  | [] => none
  | (k', v) :: rest => if k' = k then some v else pyGet? k rest

/-- The module-level `PROTO_MAP` dict of `netstat.py` (lines 17-22), as a
lookup returning `none` for a missing key (`KeyError`). -/
def PROTO_MAP : Family → SockType → Option String
  | .inet, .stream => some "tcp"
  | .inet6, .stream => some "tcp6"
  | .inet, .dgram => some "udp"
  | .inet6, .dgram => some "udp6"
  | _, _ => none

/-- The `ip_by_name` dict comprehension of `docker_container_by_ip`
(lines 33-39): container name to its list of network addresses. -/
def ip_by_name (cs : List Container) : List (String × List String) :=
  cs.foldl (fun d c => pyInsert c.name c.ips d) []

/-- The `name_by_ip` dict comprehension of `docker_container_by_ip`
(line 40): iterate `ip_by_name` keys in insertion order and, for each of
the key's addresses, assign address to container name. -/
def name_by_ip (cs : List Container) : List (String × String) :=
  (ip_by_name cs).foldl (fun d kv => kv.2.foldl (fun d' ip => pyInsert ip kv.1 d') d) []

/-- `docker_container_by_ip` (lines 25-41).  `inv = none` models
`client.containers.list()` raising `IOError` (caught: returns `"?"`).
The final `name_by_ip[ip_address]` is a bare dict index: a missing key
raises `KeyError`, modelled by a `none` result. -/
def docker_container_by_ip (inv : Option (List Container)) (ip_address : String) : Option String :=
  match inv with
  | none => some "?"
  | some containers => pyGet? ip_address (name_by_ip containers)

/-- Python `str.startswith`: a prefix test on the character sequences. -/
def pyStartsWith (s pre : String) : Bool :=
  pre.toList.isPrefixOf s.toList

/-- `os.path.basename` for POSIX paths: the part after the last slash. -/
def basename (p : String) : String :=
  String.mk ((p.toList.reverse.takeWhile (fun c => c ≠ '/')).reverse)

/-- The loop body of `process_names` (lines 76-85), threading the
`proc_names` dict.  `proc.cmdline[1]` and
`proc.cmdline[proc.cmdline.index("-container-ip") + 1]` are bare list
indexings (`IndexError` / `ValueError` when they fail), and
`docker_container_by_ip` may raise `KeyError`; each is modelled by
propagating `none`. -/
def process_names_loop (inv : Option (List Container)) :
    List ProcInfo → List (Nat × String) → Option (List (Nat × String))
  | [], acc => some acc
  | p :: rest, acc =>
    if pyStartsWith p.name "python" then
      match p.cmdline.get? 1 with
      | none => none
      | some arg =>
        process_names_loop inv rest (pyInsert p.pid (p.name ++ " " ++ basename arg) acc)
    else if p.name = "docker-proxy" then
      match p.cmdline.indexOf? "-container-ip" with
      | none => none
      | some i =>
        match p.cmdline.get? (i + 1) with
        | none => none
        | some ip =>
          match docker_container_by_ip inv ip with
          | none => none
          | some cname =>
            process_names_loop inv rest (pyInsert p.pid (p.name ++ " " ++ cname) acc)
    else
      process_names_loop inv rest (pyInsert p.pid p.name acc)

/-- `process_names` (lines 73-86): build the pid-to-label dict from the
process snapshot and the docker inventory. -/
def process_names (procs : List ProcInfo) (inv : Option (List Container)) :
    Option (List (Nat × String)) :=
  process_names_loop inv procs []

/-! ### The `rpcinfo` output parser of `kernel_process_by_port` (lines 44-70)

The Python code matches each line against the anchored regular expression
`\s+(?:\d+)\s+(?:\d)\s+(\w+)\s+([.:0-9]+)\.(\d+)\.(\d+)\s+(\w+)\s+(?:\w+)`
The embedding below is a deterministic parser equivalent to that regex
under Python's leftmost-greedy backtracking semantics: every adjacent pair
of pieces has disjoint character classes except `([.:0-9]+)\.(\d+)\.(\d+)`,
whose backtracking resolves to: the fourth group is the maximal digit
suffix of the maximal `[.:0-9]` run, the third group is the maximal digit
run left of the dot preceding it, and the second group is the nonempty
remainder left of the next dot. -/

/-- Python `\s` on ASCII input: space, tab, newline, carriage return,
vertical tab, form feed. -/
def isPySpace (c : Char) : Bool :=
  c == ' ' || c == '\t' || c == '\n' || c == '\r' || c == '\x0b' || c == '\x0c'

/-- Python `\w` on ASCII input: letters, digits, underscore. -/
def isWordChar (c : Char) : Bool :=
  c.isAlphanum || c == '_'

/-- The character class `[.:0-9]` of the address group. -/
def isAddrChar (c : Char) : Bool :=
  c == '.' || c == ':' || c.isDigit

/-- Consume one-or-more characters of class `p` (a `p`-plus regex piece
whose neighbour classes are disjoint from `p`): fail on zero matches. -/
def skipClass1 (p : Char → Bool) : List Char → Option (List Char)
  | [] => none
  | c :: cs => if p c then some (cs.dropWhile p) else none

/-- Capture one-or-more characters of class `p`, returning the captured
run and the remainder; fail on zero matches. -/
def takeClass1 (p : Char → Bool) (cs : List Char) : Option (List Char × List Char) :=
  match cs.takeWhile p with
  | [] => none
  | t => some (t, cs.dropWhile p)

/-- Split the maximal `[.:0-9]` run `A` as the regex piece
`([.:0-9]+)\.(\d+)\.(\d+)` does (see the section comment): returns
(group2, group3, group4) or fails when no split exists. -/
def splitAddr (A : List Char) : Option (List Char × List Char × List Char) :=
  let r := A.reverse
  let g4r := r.takeWhile Char.isDigit
  if g4r.isEmpty then none
  else
    match r.dropWhile Char.isDigit with
    | '.' :: r2 =>
      let g3r := r2.takeWhile Char.isDigit
      if g3r.isEmpty then none
      else
        match r2.dropWhile Char.isDigit with
        | '.' :: g2r =>
          if g2r.isEmpty then none
          else some (g2r.reverse, g3r.reverse, g4r.reverse)
        | _ => none
    | _ => none

/-- The five capture groups of one matched `rpcinfo` line:
transport protocol, address part, high port byte, low port byte,
service name (`match.group(1)` through `match.group(5)`). -/
structure RpcMatch where
  proto : String
  ip : String
  hi : String
  lo : String
  svc : String
deriving DecidableEq

/-- `regex.match(line)` (lines 52-57): the anchored match of the pattern
above, returning the five capture groups, or `none` when the line does
not match (the line is skipped). -/
def parseLine (line : String) : Option RpcMatch := do
  let s1 ← skipClass1 isPySpace line.toList
  let s2 ← skipClass1 Char.isDigit s1
  let s3 ← skipClass1 isPySpace s2
  match s3 with
  | [] => none
  | c :: s4 =>
    if c.isDigit then do
      let s5 ← skipClass1 isPySpace s4
      let (g1, s6) ← takeClass1 isWordChar s5
      let s7 ← skipClass1 isPySpace s6
      let (addrRun, s8) ← takeClass1 isAddrChar s7
      let (g2, g3, g4) ← splitAddr addrRun
      let s9 ← skipClass1 isPySpace s8
      let (g5, s10) ← takeClass1 isWordChar s9
      let s11 ← skipClass1 isPySpace s10
      let _ ← takeClass1 isWordChar s11
      pure ⟨String.mk g1, String.mk g2, String.mk g3, String.mk g4, String.mk g5⟩
    else none

/-- Python `int` on a digit string. -/
def natOfDigits (s : String) : Nat :=
  s.toList.foldl (fun n c => 10 * n + (c.toNat - '0'.toNat)) 0

/-- The triple appended to `processes` for one matched line (lines 59-65):
`(group1, f"{group2}:{256 * int(group3) + int(group4)}", group5)`. -/
def rpcTriple? (line : String) : Option (String × String × String) :=
  (parseLine line).map fun g =>
    (g.proto, g.ip ++ ":" ++ toString (256 * natOfDigits g.hi + natOfDigits g.lo), g.svc)

/-- The `processes` list built by `kernel_process_by_port` (lines 51-65)
from the splitlines of the tool's stdout: note the `[:-1]` slice drops
the final line before matching. -/
def processesOf (lines : List String) : List (String × String × String) :=
  lines.dropLast.filterMap rpcTriple?

/-- The lookup loop of `kernel_process_by_port` (lines 67-70): first
triple equal on protocol and address wins, label `"rpc." + service`;
otherwise the initial `result = "?"` is returned. -/
def rpcLookup (proto address : String) : List (String × String × String) → String
  | [] => "?"
  | t :: ts =>
    if t.1 = proto ∧ t.2.1 = address then "rpc." ++ t.2.2 else rpcLookup proto address ts

/-- `kernel_process_by_port` (lines 44-70).  `rpcOut = none` models
`subprocess.run(["rpcinfo"], ...)` raising `FileNotFoundError` (caught:
returns `"?"`); `some lines` is the splitlines of its decoded stdout. -/
def kernel_process_by_port (proto address : String) (rpcOut : Option (List String)) : String :=
  match rpcOut with
  | none => "?"
  | some lines => rpcLookup proto address (processesOf lines)

/-! ### `main` (lines 89-111) -/

/-- The sort key `_sort` of `main` (lines 96-97):
`proc_names.get(connection.pid, "?")`. -/
def sortKey (pn : List (Nat × String)) (c : Conn) : String :=
  (pyGet? c.pid pn).getD "?"

/-- The status filter of `main` (line 100):
`connection.status not in ["LISTEN", "NONE"]` skips the socket. -/
def statusOk (c : Conn) : Bool :=
  c.status == "LISTEN" || c.status == "NONE"

/-- One printed row (line 111): `connection.pid or "-"` renders a zero /
absent pid as `"-"`. -/
def connRow (proto : String) (c : Conn) (owner : String) : Row :=
  ⟨proto, c.addr, c.port, if c.pid = 0 then "-" else toString c.pid, owner⟩

/-- The report loop of `main` (lines 99-111) over the already-sorted
connection list.  The second component counts how many times
`kernel_process_by_port` executes `subprocess.run(["rpcinfo"], ...)`
(one spawn attempt per call, lines 48 and 109).  A `none` first component
models an uncaught exception: `KeyError` from `PROTO_MAP[...]` (line 105)
or from `proc_names[connection.pid]` (line 107). -/
def rowsLoop (pn : List (Nat × String)) (rpcOut : Option (List String)) :
    List Conn → Option (List Row) × Nat
  | [] => (some [], 0)
  | c :: cs =>
    if statusOk c then
      match PROTO_MAP c.family c.type with
      | none => (none, 0)
      | some proto =>
        if c.pid ≠ 0 then
          match pyGet? c.pid pn with
          | none => (none, 0)
          | some owner =>
            let r := rowsLoop pn rpcOut cs
            (r.1.map (connRow proto c owner :: ·), r.2)
        else
          let owner :=
            kernel_process_by_port proto (c.addr ++ ":" ++ toString c.port) rpcOut
          let r := rowsLoop pn rpcOut cs
          (r.1.map (connRow proto c owner :: ·), r.2 + 1)
    else rowsLoop pn rpcOut cs

/-- Python string comparison `a <= b` on the underlying character
sequences: lexicographic by code point. -/
def charListLe : List Char → List Char → Bool
  | [], _ => true
  | _ :: _, [] => false
  | a :: as, b :: bs =>
    if a < b then true else if b < a then false else charListLe as bs

/-- Python string comparison `a <= b`. -/
def pyStrLe (a b : String) : Bool :=
  charListLe a.toList b.toList

/-- The emission order of `main` (line 99):
`sorted(psutil.net_connections(), key=_sort)` — a stable ascending sort
by the string key `sortKey`, modelled by Mathlib's stable
`insertionSort` over Python's string comparison. -/
def connOrder (pn : List (Nat × String)) (conns : List Conn) : List Conn :=
  List.insertionSort (fun a b => pyStrLe (sortKey pn a) (sortKey pn b) = true) conns

/-- `main` (lines 89-111) on a snapshot of the OS state: a crash anywhere
(in `process_names` or in the loop) yields a `none` row list; the `Nat`
is the number of `rpcinfo` spawn attempts of the run. -/
def mainRun (procs : List ProcInfo) (conns : List Conn) (inv : Option (List Container))
    (rpcOut : Option (List String)) : Option (List Row) × Nat :=
  match process_names procs inv with
  | none => (none, 0)
  | some pn => rowsLoop pn rpcOut (connOrder pn conns)

/-! ### Helper lemmas: the Python string order and stable sorting -/

/-- The comparison is reflexive. -/
theorem charListLe_refl : ∀ l : List Char, charListLe l l = true
  | [] => rfl
  | a :: as => by
    simp only [charListLe, lt_self_iff_false, if_false]
    exact charListLe_refl as

/-- The comparison is total. -/
theorem charListLe_total : ∀ l m : List Char, charListLe l m = true ∨ charListLe m l = true
  | [], _ => Or.inl rfl
  | _ :: _, [] => Or.inr rfl
  | a :: as, b :: bs => by
    rcases lt_trichotomy a b with h | h | h
    · left; simp [charListLe, h]
    · subst h
      rcases charListLe_total as bs with h' | h'
      · left; simp [charListLe, lt_self_iff_false, h']
      · right; simp [charListLe, lt_self_iff_false, h']
    · right; simp [charListLe, h]

/-- The comparison is transitive. -/
theorem charListLe_trans :
    ∀ l m n : List Char, charListLe l m = true → charListLe m n = true → charListLe l n = true
  | [], _, _, _, _ => rfl
  | _ :: _, [], _, h1, _ => by simp [charListLe] at h1
  | _ :: _, _ :: _, [], _, h2 => by simp [charListLe] at h2
  | a :: as, b :: bs, c :: cs, h1, h2 => by
    simp only [charListLe] at h1 h2 ⊢
    rcases lt_trichotomy a b with hab | hab | hab
    · rcases lt_trichotomy b c with hbc | hbc | hbc
      · simp [lt_trans hab hbc]
      · subst hbc; simp [hab]
      · rw [if_neg (lt_asymm hbc), if_pos hbc] at h2; exact absurd h2 (by simp)
    · subst hab
      rw [if_neg (lt_irrefl a), if_neg (lt_irrefl a)] at h1
      rcases lt_trichotomy a c with hac | hac | hac
      · simp [hac]
      · subst hac
        rw [if_neg (lt_irrefl a), if_neg (lt_irrefl a)] at h2 ⊢
        exact charListLe_trans as bs cs h1 h2
      · rw [if_neg (lt_asymm hac), if_pos hac] at h2; exact absurd h2 (by simp)
    · rw [if_neg (lt_asymm hab), if_pos hab] at h1; exact absurd h1 (by simp)

/-- If `a` relates to every element of `m`, ordered insertion puts `a`
in front. -/
theorem orderedInsert_eq_cons {α : Type} (r : α → α → Prop) [DecidableRel r] (a : α) :
    ∀ m : List α, (∀ x ∈ m, r a x) → List.orderedInsert r a m = a :: m
  | [], _ => rfl
  | x :: xs, h => by simp [List.orderedInsert, if_pos (h x (List.mem_cons_self x xs))]

/-- Filtering commutes with ordered insertion into a sorted list, for a
total transitive relation. -/
theorem filter_orderedInsert {α : Type} (r : α → α → Prop) [DecidableRel r]
    (htot : ∀ a b, ¬ r a b → r b a) (htrans : ∀ {a b c}, r a b → r b c → r a c)
    (p : α → Bool) (a : α) :
    ∀ l : List α, l.Pairwise r →
      (List.orderedInsert r a l).filter p
        = if p a then List.orderedInsert r a (l.filter p) else l.filter p
  | [], _ => by cases hp : p a <;> simp [List.orderedInsert, List.filter, hp]
  | b :: l, hl => by
    have hbl : ∀ x ∈ l, r b x := (List.pairwise_cons.mp hl).1
    have hl' : l.Pairwise r := (List.pairwise_cons.mp hl).2
    by_cases hr : r a b
    · rw [List.orderedInsert, if_pos hr]
      cases hp : p a
      · simp [List.filter_cons, hp]
      · cases hpb : p b
        · have hall : ∀ x ∈ l.filter p, r a x := by
            intro x hx
            exact htrans hr (hbl x (List.mem_of_mem_filter hx))
          simp [List.filter_cons, hp, hpb, orderedInsert_eq_cons r a _ hall]
        · simp [List.filter_cons, hp, hpb, List.orderedInsert, if_pos hr]
    · rw [List.orderedInsert, if_neg hr]
      have ih := filter_orderedInsert r htot htrans p a l hl'
      cases hp : p a
      · cases hpb : p b <;> simp [List.filter_cons, hpb, ih, hp]
      · cases hpb : p b
        · simp [List.filter_cons, hpb, ih, hp]
        · simp [List.filter_cons, hpb, ih, hp, List.orderedInsert, if_neg hr]

/-- Filtering commutes with insertion sort, for a total transitive
relation. -/
theorem filter_insertionSort {α : Type} (r : α → α → Prop) [DecidableRel r]
    (htot : ∀ a b, ¬ r a b → r b a) (htrans : ∀ {a b c}, r a b → r b c → r a c)
    (p : α → Bool) :
    ∀ l : List α, (List.insertionSort r l).filter p = List.insertionSort r (l.filter p)
  | [] => rfl
  | a :: l => by
    haveI : IsTotal α r := ⟨fun a b => by
      by_cases h : r a b
      · exact Or.inl h
      · exact Or.inr (htot a b h)⟩
    haveI : IsTrans α r := ⟨fun _ _ _ => htrans⟩
    have hs : (List.insertionSort r l).Pairwise r := List.sorted_insertionSort r l
    have ih := filter_insertionSort r htot htrans p l
    rw [List.insertionSort, filter_orderedInsert r htot htrans p a _ hs, List.filter_cons]
    cases hp : p a
    · simp [ih]
    · simp [ih, List.insertionSort]

/-- Ordered insertion by a string key preserves, element for element, the
sublist of a given key value (stability, one step). -/
theorem filter_key_orderedInsert {α : Type} (k : α → String) (s : String) (a : α) :
    ∀ l : List α,
      (List.orderedInsert (fun x y => pyStrLe (k x) (k y) = true) a l).filter
          (fun x => k x == s)
        = if k a == s then
            a :: l.filter (fun x => k x == s)
          else l.filter (fun x => k x == s)
  | [] => by cases hp : k a == s <;> simp [List.orderedInsert, List.filter, hp]
  | b :: l => by
    by_cases hr : pyStrLe (k a) (k b) = true
    · rw [List.orderedInsert, if_pos hr]
      cases hp : k a == s <;> simp [List.filter_cons, hp]
    · rw [List.orderedInsert, if_neg hr]
      have ih := filter_key_orderedInsert k s a l
      cases hp : k a == s
      · cases hpb : k b == s <;> simp [List.filter_cons, hpb, ih, hp]
      · have hka : k a = s := by simpa using hp
        have hpb : (k b == s) = false := by
          cases hbs : k b == s
          · rfl
          · exfalso
            apply hr
            have hkb : k b = s := by simpa using hbs
            rw [pyStrLe, hka, hkb]
            exact charListLe_refl s.toList
        simp [List.filter_cons, hpb, ih, hp]

/-- Insertion sort by a string key preserves, element for element, the
sublist of a given key value (stability). -/
theorem filter_key_insertionSort {α : Type} (k : α → String) (s : String) :
    ∀ l : List α,
      (List.insertionSort (fun x y => pyStrLe (k x) (k y) = true) l).filter
          (fun x => k x == s)
        = l.filter (fun x => k x == s)
  | [] => rfl
  | a :: l => by
    have ih := filter_key_insertionSort k s l
    rw [List.insertionSort, filter_key_orderedInsert k s a _, List.filter_cons]
    cases hp : k a == s <;> simp [ih, hp]

/-! ### Claim theorems -/

/-- C7: the protocol classification table maps each of the four known
(family, type) combinations to exactly its label: (IPv4, stream) to
"tcp", (IPv6, stream) to "tcp6", (IPv4, datagram) to "udp",
(IPv6, datagram) to "udp6". -/
theorem proto_map_four_combinations :
    PROTO_MAP .inet .stream = some "tcp" ∧ PROTO_MAP .inet6 .stream = some "tcp6" ∧
    PROTO_MAP .inet .dgram = some "udp" ∧ PROTO_MAP .inet6 .dgram = some "udp6" :=
  ⟨rfl, rfl, rfl, rfl⟩

/-- C1 (failing input): one LISTEN tcp socket owned by pid 7 while the
process directory is empty (pid 7 exited between enumeration and lookup).
`proc_names[connection.pid]` raises `KeyError` and the run crashes with
no rows, instead of falling back to the label "?". -/
theorem missing_pid_raises_keyerror :
    mainRun [] [⟨.inet, .stream, "127.0.0.1", 80, "LISTEN", 7⟩] none none = (none, 0) := by
  decide

/-- C2: a process named "python3" with argv ["python3", "/opt/app/server.py"]
gets the label "python3 server.py" (name, space, path-stripped script), but
when the first command-line argument is absent `proc.cmdline[1]` raises
`IndexError` and the whole directory build crashes instead of falling back
to the base name alone. -/
theorem python_label_and_missing_arg_crash :
    process_names [⟨1, "python3", ["python3", "/opt/app/server.py"]⟩] none
      = some [(1, "python3 server.py")] ∧
    process_names [⟨1, "python3", ["python3"]⟩] none = none := by
  constructor <;> decide

/-- C3: a "docker-proxy" process with "-container-ip 172.17.0.5" resolves
to "docker-proxy web" when container "web" has that address, and to
"docker-proxy ?" when the container runtime is unreachable; but when the
runtime is reachable and no container has the address,
`name_by_ip[ip_address]` raises `KeyError` and the whole directory build
crashes instead of degrading to "docker-proxy ?". -/
theorem docker_proxy_no_match_crash :
    process_names [⟨3, "docker-proxy", ["docker-proxy", "-container-ip", "172.17.0.5"]⟩]
        (some [⟨"web", ["172.17.0.5"]⟩]) = some [(3, "docker-proxy web")] ∧
    process_names [⟨3, "docker-proxy", ["docker-proxy", "-container-ip", "172.17.0.5"]⟩]
        none = some [(3, "docker-proxy ?")] ∧
    process_names [⟨3, "docker-proxy", ["docker-proxy", "-container-ip", "172.17.0.5"]⟩]
        (some [⟨"web", ["172.17.0.9"]⟩]) = none := by
  refine ⟨by decide, by decide, by decide⟩

/-- C4 (counterexample): with the rpcinfo tool present, a run over two
kernel-owned sockets on the same (protocol, address:port) pair spawns the
registry tool twice — once per lookup — refuting "spawned at most once
per run with the result cached and reused". -/
theorem rpc_tool_spawned_twice :
    mainRun [] [⟨.inet, .dgram, "0.0.0.0", 111, "NONE", 0⟩,
        ⟨.inet, .dgram, "0.0.0.0", 111, "NONE", 0⟩] none (some [])
      = (some [⟨"udp", "0.0.0.0", 111, "-", "?"⟩, ⟨"udp", "0.0.0.0", 111, "-", "?"⟩], 2) := by
  decide

/-- C8 (counterexample): a LISTEN socket whose family is neither IPv4 nor
IPv6 reaches `PROTO_MAP[(connection.family, connection.type)]`, which
raises `KeyError` and crashes the run — the socket is neither dropped with
a diagnosable decision nor reported with an unknown marker. -/
theorem unknown_family_raises_keyerror :
    mainRun [] [⟨.other 10, .stream, "0.0.0.0", 1, "LISTEN", 0⟩] none none = (none, 0) := by
  decide

/-- C9 (counterexample): a kernel-owned udp socket resolving to
"rpc.portmapper" is sorted under the key "?" (`proc_names.get(pid, "?")`),
not under its resolved owner label, so it is emitted before a socket whose
resolved label "aaa" is smaller: the report is not sorted by resolved
owner label. -/
theorem report_not_sorted_by_resolved_label :
    (mainRun [⟨5, "aaa", []⟩]
        [⟨.inet, .dgram, "0.0.0.0", 111, "NONE", 0⟩,
         ⟨.inet, .stream, "127.0.0.1", 80, "LISTEN", 5⟩] none
        (some ["   100000 2 udp 0.0.0.0.0.111 portmapper superuser", "x"])).1
      = some [⟨"udp", "0.0.0.0", 111, "-", "rpc.portmapper"⟩,
              ⟨"tcp", "127.0.0.1", 80, "5", "aaa"⟩] ∧
    pyStrLe "rpc.portmapper" "aaa" = false := by
  constructor <;> decide

/-- Skipping of non-listening sockets happens before any resolution, so
the loop result over a list equals the result over its status-filtered
sublist. -/
theorem rowsLoop_filter_statusOk (pn : List (Nat × String)) (rpcOut : Option (List String)) :
    ∀ cs : List Conn, rowsLoop pn rpcOut cs = rowsLoop pn rpcOut (cs.filter statusOk)
  | [] => rfl
  | c :: cs => by
    have ih := rowsLoop_filter_statusOk pn rpcOut cs
    cases hst : statusOk c
    · simp only [rowsLoop, hst, List.filter_cons, Bool.false_eq_true, if_false]
      exact ih
    · simp only [rowsLoop, hst, List.filter_cons, if_true]
      rw [ih]

/-- The totality of the sort order on connections. -/
theorem connRel_total (pn : List (Nat × String)) :
    ∀ a b : Conn, ¬ pyStrLe (sortKey pn a) (sortKey pn b) = true →
      pyStrLe (sortKey pn b) (sortKey pn a) = true :=
  fun _ _ h => (charListLe_total _ _).resolve_left h

/-- The transitivity of the sort order on connections. -/
theorem connRel_trans (pn : List (Nat × String)) :
    ∀ {a b c : Conn}, pyStrLe (sortKey pn a) (sortKey pn b) = true →
      pyStrLe (sortKey pn b) (sortKey pn c) = true →
      pyStrLe (sortKey pn a) (sortKey pn c) = true :=
  fun h1 h2 => charListLe_trans _ _ _ h1 h2

/-- C6: sockets whose state is outside of LISTEN and NONE are excluded
before resolution: removing them from the socket snapshot does not change
the run at all; in particular prepending an ESTABLISHED socket leaves the
run unchanged, so such a socket never produces a report row. -/
theorem established_never_reported :
    (∀ (procs : List ProcInfo) (conns : List Conn) inv rpcOut,
      mainRun procs conns inv rpcOut = mainRun procs (conns.filter statusOk) inv rpcOut) ∧
    (∀ (procs : List ProcInfo) (conns : List Conn) inv rpcOut (c : Conn),
      c.status = "ESTABLISHED" →
      mainRun procs (c :: conns) inv rpcOut = mainRun procs conns inv rpcOut) := by
  have key : ∀ (procs : List ProcInfo) (conns : List Conn) inv rpcOut,
      mainRun procs conns inv rpcOut = mainRun procs (conns.filter statusOk) inv rpcOut := by
    intro procs conns inv rpcOut
    unfold mainRun
    cases hpn : process_names procs inv with
    | none => rfl
    | some pn =>
      show rowsLoop pn rpcOut (connOrder pn conns) = _
      rw [rowsLoop_filter_statusOk pn rpcOut (connOrder pn conns)]
      unfold connOrder
      rw [filter_insertionSort _ (connRel_total pn) (connRel_trans pn) statusOk conns]
  refine ⟨key, ?_⟩
  intro procs conns inv rpcOut c h
  have hst : statusOk c = false := by
    rw [statusOk, h]
    decide
  rw [key procs (c :: conns) inv rpcOut, List.filter_cons, hst]
  simp only [Bool.false_eq_true, if_false]
  exact (key procs conns inv rpcOut).symm

/-- C6 witness: a concrete ESTABLISHED socket among the connections gives
the same run as no socket at all. -/
theorem established_never_reported_witness :
    mainRun [] [⟨.inet, .stream, "10.0.0.1", 5, "ESTABLISHED", 4⟩] none none
      = mainRun [] [] none none :=
  established_never_reported.2 [] [] none none
    ⟨.inet, .stream, "10.0.0.1", 5, "ESTABLISHED", 4⟩ rfl

/-- C9 (amended): the emission order is the stable ascending sort by the
key `proc_names.get(pid, "?")` — the pid's directory label, with "?" for
an absent or unknown pid — not by the final resolved owner label: the
sorted list is pairwise ordered by that key, and connections with equal
keys keep their original enumeration order. -/
theorem report_order_sorted_and_stable_by_key :
    ∀ (pn : List (Nat × String)) (conns : List Conn),
      (connOrder pn conns).Pairwise
        (fun a b => pyStrLe (sortKey pn a) (sortKey pn b) = true) ∧
      ∀ s : String,
        (connOrder pn conns).filter (fun c => sortKey pn c == s)
          = conns.filter (fun c => sortKey pn c == s) := by
  intro pn conns
  constructor
  · haveI : IsTotal Conn (fun a b => pyStrLe (sortKey pn a) (sortKey pn b) = true) :=
      ⟨fun a b => charListLe_total _ _⟩
    haveI : IsTrans Conn (fun a b => pyStrLe (sortKey pn a) (sortKey pn b) = true) :=
      ⟨fun _ _ _ h1 h2 => charListLe_trans _ _ _ h1 h2⟩
    exact List.sorted_insertionSort _ conns
  · intro s
    exact filter_key_insertionSort (sortKey pn) s conns

/-- Spawn counting: on a run of the loop that completes, the number of
`rpcinfo` spawns equals the number of reported kernel-owned sockets. -/
theorem rowsLoop_count (pn : List (Nat × String)) (rpcOut : Option (List String))
    (cs : List Conn) :
    ∀ rows : List Row, (rowsLoop pn rpcOut cs).1 = some rows →
      (rowsLoop pn rpcOut cs).2 = cs.countP (fun c => statusOk c && c.pid == 0) := by
  induction cs with
  | nil => intro rows _; simp [rowsLoop]
  | cons c cs ih =>
    intro rows h
    cases hst : statusOk c
    · simp only [rowsLoop, hst, Bool.false_eq_true, if_false] at h ⊢
      rw [List.countP_cons, ih rows h]
      simp [hst]
    · cases hpm : PROTO_MAP c.family c.type with
      | none => simp [rowsLoop, hst, hpm] at h
      | some proto =>
        by_cases hpid : c.pid = 0
        · simp only [rowsLoop, hst, hpm, hpid, ne_eq, not_true_eq_false, if_true,
            if_false, not_false_eq_true] at h ⊢
          rcases Option.map_eq_some'.mp h with ⟨rows', h', _⟩
          rw [List.countP_cons, ih rows' h']
          simp [hst, hpid]
        · simp only [rowsLoop, hst, hpm, hpid, ne_eq, not_false_eq_true, if_true] at h ⊢
          cases hlk : pyGet? c.pid pn with
          | none => rw [hlk] at h; simp at h
          | some owner =>
            rw [hlk] at h
            dsimp only at h ⊢
            rcases Option.map_eq_some'.mp h with ⟨rows', h', _⟩
            rw [List.countP_cons, ih rows' h']
            simp [hst, hpid]

/-- C4 (amended): on a run that completes, the registry tool is spawned
exactly once per reported kernel-owned (pid-absent) socket — there is no
caching, so a recurring (protocol, address:port) pair spawns again. -/
theorem rpc_spawn_count :
    ∀ (procs : List ProcInfo) (conns : List Conn) inv rpcOut (rows : List Row),
      (mainRun procs conns inv rpcOut).1 = some rows →
      (mainRun procs conns inv rpcOut).2
        = conns.countP (fun c => statusOk c && c.pid == 0) := by
  intro procs conns inv rpcOut rows h
  unfold mainRun at h ⊢
  cases hpn : process_names procs inv with
  | none => rw [hpn] at h; simp at h
  | some pn =>
    rw [hpn] at h
    dsimp only at h ⊢
    rw [rowsLoop_count pn rpcOut _ rows h]
    exact (List.perm_insertionSort _ conns).countP_eq _

/-- C4 witness: one reported kernel-owned socket, one spawn. -/
theorem rpc_spawn_count_witness :
    (mainRun [] [⟨.inet, .dgram, "0.0.0.0", 111, "NONE", 0⟩] none (some [])).2
      = ([⟨.inet, .dgram, "0.0.0.0", 111, "NONE", 0⟩] : List Conn).countP
          (fun c => statusOk c && c.pid == 0) :=
  rpc_spawn_count [] [⟨.inet, .dgram, "0.0.0.0", 111, "NONE", 0⟩] none (some [])
    [⟨"udp", "0.0.0.0", 111, "-", "?"⟩] (by decide)

/-- A lookup over triples none of which matches returns the fallback. -/
theorem rpcLookup_eq_fallback (proto address : String) :
    ∀ ts : List (String × String × String),
      (∀ t ∈ ts, ¬ (t.1 = proto ∧ t.2.1 = address)) → rpcLookup proto address ts = "?"
  | [], _ => rfl
  | t :: ts, h => by
    rw [rpcLookup, if_neg (h t (List.mem_cons_self t ts))]
    exact rpcLookup_eq_fallback proto address ts fun u hu => h u (List.mem_cons_of_mem t hu)

/-- The first matching triple wins the lookup. -/
theorem rpcLookup_first_match (proto address : String) :
    ∀ (ts₁ : List (String × String × String)) (t : String × String × String)
      (ts₂ : List (String × String × String)),
      (∀ u ∈ ts₁, ¬ (u.1 = proto ∧ u.2.1 = address)) → t.1 = proto → t.2.1 = address →
      rpcLookup proto address (ts₁ ++ t :: ts₂) = "rpc." ++ t.2.2
  | [], t, ts₂, _, h1, h2 => by rw [List.nil_append, rpcLookup, if_pos ⟨h1, h2⟩]
  | u :: ts₁, t, ts₂, h, h1, h2 => by
    rw [List.cons_append, rpcLookup, if_neg (h u (List.mem_cons_self u ts₁))]
    exact rpcLookup_first_match proto address ts₁ t ts₂
      (fun v hv => h v (List.mem_cons_of_mem u hv)) h1 h2

/-- C5: every triple the resolver considers comes from a matched line,
with the port computed as 256 times the high 8-bit group plus the low
group; the lookup is exact match with the first matching registration
winning, returning "rpc.<service>" on a match and "?" otherwise. -/
theorem rpc_resolver_contract :
    (∀ (lines : List String) (t : String × String × String), t ∈ processesOf lines →
      ∃ l ∈ lines.dropLast, ∃ g : RpcMatch, parseLine l = some g ∧
        t = (g.proto, g.ip ++ ":" ++ toString (256 * natOfDigits g.hi + natOfDigits g.lo),
             g.svc)) ∧
    (∀ proto address lines,
      (∀ t ∈ processesOf lines, ¬ (t.1 = proto ∧ t.2.1 = address)) →
      kernel_process_by_port proto address (some lines) = "?") ∧
    (∀ proto address lines ts₁ (t : String × String × String) ts₂,
      processesOf lines = ts₁ ++ t :: ts₂ →
      (∀ u ∈ ts₁, ¬ (u.1 = proto ∧ u.2.1 = address)) → t.1 = proto → t.2.1 = address →
      kernel_process_by_port proto address (some lines) = "rpc." ++ t.2.2) := by
  refine ⟨?_, ?_, ?_⟩
  · intro lines t ht
    rcases List.mem_filterMap.mp ht with ⟨l, hl, hrt⟩
    simp only [rpcTriple?] at hrt
    rcases Option.map_eq_some'.mp hrt with ⟨g, hg, hf⟩
    exact ⟨l, hl, g, hg, hf.symm⟩
  · intro proto address lines h
    exact rpcLookup_eq_fallback proto address (processesOf lines) h
  · intro proto address lines ts₁ t ts₂ hsplit h h1 h2
    show rpcLookup proto address (processesOf lines) = _
    rw [hsplit]
    exact rpcLookup_first_match proto address ts₁ t ts₂ h h1 h2

/-- C5 witness: the portmapper registration on udp, port 256 * 0 + 111,
is parsed, a non-matching query falls back to "?", and the matching query
returns "rpc.portmapper". -/
theorem rpc_resolver_contract_witness :
    (∃ l ∈ (["   100000 2 udp 0.0.0.0.0.111 portmapper superuser", "x"] : List String).dropLast,
      ∃ g : RpcMatch, parseLine l = some g ∧
        (("udp", "0.0.0.0:111", "portmapper") : String × String × String)
          = (g.proto, g.ip ++ ":" ++ toString (256 * natOfDigits g.hi + natOfDigits g.lo),
             g.svc)) ∧
    kernel_process_by_port "tcp" "1.2.3.4:5"
        (some ["   100000 2 udp 0.0.0.0.0.111 portmapper superuser", "x"]) = "?" ∧
    kernel_process_by_port "udp" "0.0.0.0:111"
        (some ["   100000 2 udp 0.0.0.0.0.111 portmapper superuser", "x"])
      = "rpc.portmapper" :=
  ⟨rpc_resolver_contract.1 _ ("udp", "0.0.0.0:111", "portmapper") (by decide),
   rpc_resolver_contract.2.1 "tcp" "1.2.3.4:5" _ (by decide),
   rpc_resolver_contract.2.2 "udp" "0.0.0.0:111" _ [] ("udp", "0.0.0.0:111", "portmapper") []
     (by decide) (by decide) rfl rfl⟩

/-- A classified protocol label is one of the four table values, hence
never the blank string. -/
theorem proto_map_nonblank (f : Family) (t : SockType) (s : String)
    (h : PROTO_MAP f t = some s) : s ≠ "" := by
  cases f <;> cases t <;> simp [PROTO_MAP] at h <;> subst h <;> decide

/-- Every row a completed loop emits carries a label delivered by the
protocol table. -/
theorem rowsLoop_proto_nonblank (pn : List (Nat × String)) (rpcOut : Option (List String))
    (cs : List Conn) :
    ∀ rows : List Row, (rowsLoop pn rpcOut cs).1 = some rows →
      ∀ r ∈ rows, r.proto ≠ "" := by
  induction cs with
  | nil =>
    intro rows h r hr
    simp only [rowsLoop, Option.some.injEq] at h
    subst h
    simp at hr
  | cons c cs ih =>
    intro rows h r hr
    cases hst : statusOk c
    · simp only [rowsLoop, hst, Bool.false_eq_true, if_false] at h
      exact ih rows h r hr
    · cases hpm : PROTO_MAP c.family c.type with
      | none => simp [rowsLoop, hst, hpm] at h
      | some proto =>
        by_cases hpid : c.pid = 0
        · simp only [rowsLoop, hst, hpm, hpid, ne_eq, not_true_eq_false, if_true,
            if_false, not_false_eq_true] at h
          rcases Option.map_eq_some'.mp h with ⟨rows', h', hcons⟩
          subst hcons
          rcases List.mem_cons.mp hr with hr1 | hr2
          · subst hr1
            exact proto_map_nonblank c.family c.type proto hpm
          · exact ih rows' h' r hr2
        · simp only [rowsLoop, hst, hpm, hpid, ne_eq, not_false_eq_true, if_true] at h
          cases hlk : pyGet? c.pid pn with
          | none => rw [hlk] at h; simp at h
          | some owner =>
            rw [hlk] at h
            rcases Option.map_eq_some'.mp h with ⟨rows', h', hcons⟩
            subst hcons
            rcases List.mem_cons.mp hr with hr1 | hr2
            · subst hr1
              exact proto_map_nonblank c.family c.type proto hpm
            · exact ih rows' h' r hr2

/-- C8 (amended): a socket with an unrecognized (family, type)
combination that passes the status filter makes
`PROTO_MAP[(connection.family, connection.type)]` raise `KeyError`,
aborting the run (it is neither dropped with a diagnosable decision nor
reported with an unknown marker); and no emitted row ever carries a blank
protocol label. -/
theorem unknown_combo_crashes_never_blank :
    (∀ (procs : List ProcInfo) inv rpcOut (c : Conn), statusOk c = true →
      PROTO_MAP c.family c.type = none → (mainRun procs [c] inv rpcOut).1 = none) ∧
    (∀ (procs : List ProcInfo) (conns : List Conn) inv rpcOut (rows : List Row) (r : Row),
      (mainRun procs conns inv rpcOut).1 = some rows → r ∈ rows → r.proto ≠ "") := by
  constructor
  · intro procs inv rpcOut c hst hpm
    unfold mainRun
    cases hpn : process_names procs inv with
    | none => rfl
    | some pn =>
      have hone : connOrder pn [c] = [c] := by
        simp [connOrder]
      dsimp only
      rw [hone]
      simp [rowsLoop, hst, hpm]
  · intro procs conns inv rpcOut rows r h hr
    unfold mainRun at h
    cases hpn : process_names procs inv with
    | none => rw [hpn] at h; simp at h
    | some pn =>
      rw [hpn] at h
      dsimp only at h
      exact rowsLoop_proto_nonblank pn rpcOut _ rows h r hr

/-- C8 witness: a NONE-state datagram socket of an unknown family crashes
the run, and a concrete emitted row has the non-blank label "udp". -/
theorem unknown_combo_crashes_never_blank_witness :
    (mainRun [] [⟨.other 10, .dgram, "0.0.0.0", 1, "NONE", 0⟩] none none).1 = none ∧
    (⟨"udp", "0.0.0.0", 111, "-", "?"⟩ : Row).proto ≠ "" :=
  ⟨unknown_combo_crashes_never_blank.1 [] none none
     ⟨.other 10, .dgram, "0.0.0.0", 1, "NONE", 0⟩ (by decide) (by decide),
   unknown_combo_crashes_never_blank.2 [] [⟨.inet, .dgram, "0.0.0.0", 111, "NONE", 0⟩]
     none (some []) [⟨"udp", "0.0.0.0", 111, "-", "?"⟩] _ (by decide) (by decide)⟩

/-- C10: the resolver discards the final line of the registry tool's
output before parsing — the triples considered, and hence every lookup
result, are computed from all lines but the last, so a registration on
the last line is never added and can never be matched. -/
theorem last_output_line_discarded (lines : List String) (l proto address : String) :
    processesOf (lines ++ [l]) = lines.filterMap rpcTriple? ∧
    kernel_process_by_port proto address (some (lines ++ [l]))
      = rpcLookup proto address (lines.filterMap rpcTriple?) := by
  have h : (lines ++ [l]).dropLast = lines := by simp
  exact ⟨by simp [processesOf, h], by simp [kernel_process_by_port, processesOf, h]⟩

end Netstat
